import Mathlib

/-!
Verification of the kubediag repository (dynamic Kubernetes resource
resolver, object sanitizer, and List/Get tool operations).

The definitions below are a shallow embedding of the Python sources:
  * `src/src/kubediag/kubernetes.py` — resolver (`get_resource_api`),
    sanitizer (`clean_resource_object`, `_truncate_deep`), helpers;
  * `src/src/kubediag/mcp.py` — parameter validation and the
    `kubernetes_get` / `kubernetes_list` tool operations.

Python values flowing through the sanitizer are modelled by the
`Val` / `ValList` / `ValDict` mutual inductive family: a tagged variant of
the value shapes the code dispatches on (`str`, `dict`, `list`, `int`,
`float`, `bool`, `None`, and a catch-all `other` carrying its `str()`
rendering).  Floats are never inspected beyond truthiness, so the `float`
constructor carries an opaque textual rendering plus a zero flag.
Mappings are association lists with string keys, mirroring the string-keyed
dictionaries produced by the transport layer.
-/

set_option linter.unusedVariables false

namespace Kubediag

/-- A single quote character, used to build error messages exactly as the
Python f-strings do. -/
def sq : String := String.singleton (Char.ofNat 39)

mutual

/-- Generic Python value, as dispatched on by `_truncate_deep` and
`clean_resource_object` (kubernetes.py lines 93-110, 113-166). -/
inductive Val where
  | null : Val
  | bool (b : Bool) : Val
  | int (n : Int) : Val
  | float (reprStr : String) (isZero : Bool) : Val
  | str (s : String) : Val
  | arr (l : ValList) : Val
  | dict (kvs : ValDict) : Val
  | other (strVal : String) : Val

/-- A Python list of values. -/
inductive ValList where
  | nil : ValList
  | cons (v : Val) (tail : ValList) : ValList

/-- A Python dict with string keys, in insertion order. -/
inductive ValDict where
  | nil : ValDict
  | cons (k : String) (v : Val) (tail : ValDict) : ValDict

end

/-- Python truthiness (`if not obj`, `if result["metadata"]`, ...).
Objects of unmodelled types (`other`) are treated as truthy, which is the
Python default for objects without `__bool__`/`__len__`. -/
def pyTruthy : Val → Bool
  | .null => false
  | .bool b => b
  | .int n => n != 0
  | .float _ isZero => !isZero
  | .str s => s != ""
  | .arr .nil => false
  | .arr (.cons _ _) => true
  | .dict .nil => false
  | .dict (.cons _ _ _) => true
  | .other _ => true

/-- First value stored under key `k` (Python `d[k]` / `k in d`). -/
def dictLookup : ValDict → String → Option Val
  | .nil, _ => none
  | .cons k0 v0 rest, k => if k0 == k then some v0 else dictLookup rest k

/-- Keys of a dict, in order. -/
def dictKeys : ValDict → List String
  | .nil => []
  | .cons k _ rest => k :: dictKeys rest

/-- Python `d[k] = v`: replace the value at `k` in place if the key is
present, otherwise append the new entry at the end. -/
def dictSet : ValDict → String → Val → ValDict
  | .nil, k, v => .cons k v .nil
  | .cons k0 v0 rest, k, v =>
    if k0 == k then .cons k0 v rest else .cons k0 v0 (dictSet rest k v)

/-- Concatenation of two dicts (used to build `cleaned_metadata` in
insertion order). -/
def dictAppend : ValDict → ValDict → ValDict
  | .nil, d2 => d2
  | .cons k v rest, d2 => .cons k v (dictAppend rest d2)

/-- The truncation suffix produced by `_truncate_deep` for an over-long
string `s` (kubernetes.py line 98). -/
def truncatedString (maxLength : Nat) (s : String) : String :=
  s.take maxLength ++ "... [truncated, original length: " ++ toString s.length ++ "]"

mutual

/-- `_truncate_deep` (kubernetes.py lines 93-110): truncate over-long string
leaves, recurse through dicts and lists, pass numbers/bools/None through,
and stringify any other leaf before applying the same length rule. -/
def truncateDeep (maxLength : Nat) : Val → Val
  | .str s =>
    if s.length > maxLength then .str (truncatedString maxLength s) else .str s
  | .dict kvs => .dict (truncateDict maxLength kvs)
  | .arr l => .arr (truncateList maxLength l)
  | .int n => .int n
  | .float reprStr isZero => .float reprStr isZero
  | .bool b => .bool b
  | .null => .null
  | .other s =>
    if s.length > maxLength then .str (truncatedString maxLength s) else .str s

/-- `_truncate_deep` on each value of a dict. -/
def truncateDict (maxLength : Nat) : ValDict → ValDict
  | .nil => .nil
  | .cons k v rest => .cons k (truncateDeep maxLength v) (truncateDict maxLength rest)

/-- `_truncate_deep` on each element of a list. -/
def truncateList (maxLength : Nat) : ValList → ValList
  | .nil => .nil
  | .cons v rest => .cons (truncateDeep maxLength v) (truncateList maxLength rest)

end

mutual

/-- Python `str()` rendering of a value, used only by the fallback branch of
`kubernetes_get` that wraps a non-dict sanitizer result.  The rendering of
containers approximates `repr` (nested quoting of strings is not
reproduced); the branch is proved unreachable, so the rendering is never
observable. -/
def pyStr : Val → String
  | .null => "None"
  | .bool true => "True"
  | .bool false => "False"
  | .int n => toString n
  | .float reprStr _ => reprStr
  | .str s => s
  | .other s => s
  | .arr l => "[" ++ pyStrElems l ++ "]"
  | .dict kvs => "\x7b" ++ pyStrEntries kvs ++ "\x7d"

/-- Comma-separated rendering of list elements. -/
def pyStrElems : ValList → String
  | .nil => ""
  | .cons v .nil => pyStr v
  | .cons v rest => pyStr v ++ ", " ++ pyStrElems rest

/-- Comma-separated rendering of dict entries. -/
def pyStrEntries : ValDict → String
  | .nil => ""
  | .cons k v .nil => k ++ ": " ++ pyStr v
  | .cons k v rest => k ++ ": " ++ pyStr v ++ ", " ++ pyStrEntries rest

end

/-- The annotation-key denylist of `clean_resource_object`
(kubernetes.py lines 139-154): an annotation is dropped exactly when this
predicate holds. -/
def isDroppedAnnotationKey (key : String) : Bool :=
  key.startsWith "kubectl.kubernetes.io/"
    || key.startsWith "kubernetes.io/"
    || key == "kubectl.kubernetes.io/last-applied-configuration"
    || key.endsWith "/last-applied-configuration"
    || key == "deployment.kubernetes.io/revision"
    || key.startsWith "deployment.kubernetes.io/"
    || key.startsWith "pod-template-generation"
    || key.startsWith "autoscaling."
    || key.startsWith "control-plane."
    || key.startsWith "deployment."
    || key.startsWith "job."
    || key.startsWith "batch."
    || key.startsWith "meta.helm.sh/"
    || key.startsWith "helm.sh/"

/-- The annotation dict comprehension of `clean_resource_object`
(kubernetes.py lines 136-155): keep exactly the entries whose key is not on
the denylist. -/
def filterAnnotationsDict : ValDict → ValDict
  | .nil => .nil
  | .cons k v rest =>
    if isDroppedAnnotationKey k then filterAnnotationsDict rest
    else .cons k v (filterAnnotationsDict rest)

/-- One `if field in original_metadata: cleaned_metadata[field] = ...` step
of the metadata loop (kubernetes.py lines 130-132). -/
def fieldEntry (md : ValDict) (f : String) : ValDict :=
  match dictLookup md f with
  | some v => .cons f v .nil
  | none => .nil

/-- `cleaned_metadata` after the field loop: at most `name`, `namespace`,
`labels`, in that insertion order (kubernetes.py lines 130-132). -/
def keepFields (md : ValDict) : ValDict :=
  dictAppend (fieldEntry md "name")
    (dictAppend (fieldEntry md "namespace") (fieldEntry md "labels"))

/-- Building `cleaned_metadata` from a metadata dict
(kubernetes.py lines 127-157).  Python raises (`AttributeError`) when a
truthy `annotations` value is not a mapping and `.items()` is called on it;
that path is an `Except.error`. -/
def cleanMetadataDict (md : ValDict) : Except String ValDict :=
  let base := keepFields md
  match dictLookup md "annotations" with
  | some av =>
    if pyTruthy av then
      match av with
      | .dict al =>
        let cleanedAl := filterAnnotationsDict al
        if pyTruthy (.dict cleanedAl) then
          .ok (dictAppend base (ValDict.cons "annotations" (.dict cleanedAl) .nil))
        else .ok base
      | _ => .error "AttributeError: annotations object has no attribute items"
    else .ok base
  | none => .ok base

/-- Rule 1 of `clean_resource_object` (kubernetes.py lines 125-159): if a
truthy `metadata` field is present, replace it by the cleaned metadata.
Python raises (`TypeError`) when a truthy metadata value is not a mapping
and it is indexed by field name; that path is an `Except.error`. -/
def applyMetadataRule (result : ValDict) : Except String ValDict :=
  match dictLookup result "metadata" with
  | some mv =>
    if pyTruthy mv then
      match mv with
      | .dict md =>
        (cleanMetadataDict md).map (fun cm => dictSet result "metadata" (.dict cm))
      | _ => .error "TypeError: metadata is not subscriptable"
    else .ok result
  | none => .ok result

/-- The secrets dict comprehension (kubernetes.py line 163): every key of
the original `data` mapping mapped to the fixed redaction marker. -/
def mapToRedacted : ValDict → ValDict
  | .nil => .nil
  | .cons k _ rest => .cons k (.str "REDACTED") (mapToRedacted rest)

/-- Rule 2 of `clean_resource_object` (kubernetes.py lines 162-163): for
resource type `"secrets"`, replace every value of a truthy `data` mapping
by `"REDACTED"`.  Iterating a truthy non-mapping `data` value for its keys
is not modelled (all claims concern mapping-valued `data`); it is an
`Except.error`. -/
def applySecretsRule (resource_type : String) (result : ValDict) : Except String ValDict :=
  if resource_type == "secrets" then
    match dictLookup result "data" with
    | some dv =>
      if pyTruthy dv then
        match dv with
        | .dict kvs => .ok (dictSet result "data" (.dict (mapToRedacted kvs)))
        | _ => .error "TypeError: data is not iterable as keys"
      else .ok result
    | none => .ok result
  else .ok result

/-- The duck-typed coercion at the head of `clean_resource_object`
(kubernetes.py lines 117-122: `to_dict()` / `__dict__` / `dict(obj)`).
The spec (section 4.2 step 2) records the transport-layer guarantee that
resource objects are structurally convertible and that a refusal to convert
yields an empty mapping, not an error; accordingly a truthy value that is
not structurally a mapping coerces to the empty dict. -/
def coerceToDict : Val → ValDict
  | .dict kvs => kvs
  | _ => .nil

/-- `clean_resource_object` (kubernetes.py lines 113-166): falsy input gives
the empty dict; otherwise coerce, apply the metadata rule, the secrets
rule, and finally `_truncate_deep` with the default threshold 256. -/
def cleanResourceObject (obj : Val) (resource_type : String) : Except String Val :=
  if pyTruthy obj then
    match (applyMetadataRule (coerceToDict obj)).bind (applySecretsRule resource_type) with
    | .ok result => .ok (truncateDeep 256 (.dict result))
    | .error e => .error e
  else .ok (.dict .nil)

/-- A discovered API resource descriptor, with the fields the resolver and
the tool operations read (`group`, `api_version`, `name`, `namespaced`). -/
structure Resource where
  group : String
  api_version : String
  name : String
  namespaced : Bool
deriving DecidableEq, Repr

/-- `_resource_api_cache` (kubernetes.py line 37): a mapping from requested
type string to `Some descriptor` or the explicit negative marker `none`. -/
abbrev Cache := List (String × Option Resource)

/-- Cache lookup (`resource_type in _resource_api_cache`). -/
def cacheFind : Cache → String → Option (Option Resource)
  | [], _ => none
  | (k0, v0) :: rest, k => if k0 == k then some v0 else cacheFind rest k

/-- Cache store (`_resource_api_cache[resource_type] = ...`). -/
def cacheInsert : Cache → String → Option Resource → Cache
  | [], k, v => [(k, v)]
  | (k0, v0) :: rest, k, v =>
    if k0 == k then (k0, v) :: rest else (k0, v0) :: cacheInsert rest k v

/-- The preference loop of `get_resource_api` (kubernetes.py lines 65-79):
walk the matching resources; break out with the first one whose API group
is empty; remember the first resource seen as a fallback. -/
def pickPreferred : Option Resource → List Resource → Option Resource
  | pref, [] => pref
  | pref, r :: rest =>
    if r.group == "" then some r
    else pickPreferred (match pref with | some p => some p | none => some r) rest

/-- `get_resource_api` (kubernetes.py lines 40-90).  The discovery call
`dynamic_client.resources.search()` is modelled by the `disc` argument: a
list of descriptors on success, or a transport error.  Returns the resolved
descriptor (or `none`) together with the updated cache. -/
def getResourceApi (disc : Except String (List Resource)) (cache : Cache)
    (resource_type : String) : Option Resource × Cache :=
  match cacheFind cache resource_type with
  | some cached => (cached, cache)
  | none =>
    match disc with
    | .error _ => (none, cacheInsert cache resource_type none)
    | .ok allResources =>
      let matching := allResources.filter (fun r => r.name == resource_type)
      match matching with
      | [] => (none, cacheInsert cache resource_type none)
      | r0 :: rest =>
        let resource :=
          match pickPreferred none (r0 :: rest) with
          | some r => r
          | none => r0
        (some resource, cacheInsert cache resource_type (some resource))

/-- `extract_resource_info` (kubernetes.py lines 169-175): group, version,
and canonical name of a descriptor, falling back to the requested type when
the name is falsy. -/
def extractResourceInfo (resource_api : Resource) (resource_type : String) :
    String × String × String :=
  (resource_api.group, resource_api.api_version,
    if resource_api.name == "" then resource_type else resource_api.name)

/-- Python `str.strip()` whitespace set (ASCII). -/
def isPyWhitespace (c : Char) : Bool :=
  c == ' ' || c == '\t' || c == '\n' || c == '\r' || c == '\x0b' || c == '\x0c'

/-- Python `value.strip()`. -/
def pythonStrip (s : String) : String :=
  String.mk (((s.data.dropWhile isPyWhitespace).reverse.dropWhile isPyWhitespace).reverse)

/-- Python `str.lower()` (ASCII-faithful, which covers the resource-type
strings and normalization literals the code compares). -/
def pyLower (s : String) : String := String.mk (s.data.map Char.toLower)

/-- The normalized form `value.strip().lower()` computed by
`validate_optional_string_param` (mcp.py line 37). -/
def pyNormalize (s : String) : String := pyLower (pythonStrip s)

/-- `validate_optional_string_param` (mcp.py lines 15-41).  The input is an
optional string (the non-string type error cannot arise for a typed
argument).  The literal forms of null normalize to `none`; any other string
is passed through unchanged. -/
def validateOptionalStringParam (value : Option String) (param_name : String) :
    Except String (Option String) :=
  match value with
  | none => .ok none
  | some s =>
    let normalized := pyNormalize s
    if normalized == "none" || normalized == "null" || normalized == "" then .ok none
    else .ok (some s)

/-- `validate_required_string_param` (mcp.py lines 44-61): a falsy value
(absent or empty string) is rejected. -/
def validateRequiredStringParam (value : Option String) (param_name : String) :
    Except String String :=
  match value with
  | some s =>
    if s == "" then .error (param_name ++ " must be a non-empty string")
    else .ok s
  | none => .error (param_name ++ " must be a non-empty string")

/-- Outcome of a tool call: a returned document or a raised `ToolError`
carrying its message. -/
inductive ToolOutcome where
  | ok (doc : Val) : ToolOutcome
  | toolError (msg : String) : ToolOutcome

/-- The error-message wrapper of `kubernetes_get`'s exception handlers
(mcp.py lines 211-218): every exception raised inside the `try` block —
including the `ToolError`s raised there, which the trailing
`except Exception` also catches — is re-raised as
`"Error getting {rt} '{name}': {msg}"`. -/
def getErrMsg (resource_type name msg : String) : String :=
  "Error getting " ++ (resource_type ++ (" " ++ (sq ++ (name ++ (sq ++ (": " ++ msg))))))

/-- The post-resolution body of `kubernetes_get` (mcp.py lines 188-209),
before exception wrapping: sanitize the transport result and dispatch on
its shape (dict / `None` / anything else). -/
def getBody (raw : Val) (resource_type : String) : Except String Val :=
  match cleanResourceObject raw resource_type with
  | .error e => .error e
  | .ok (.dict kvs) => .ok (.dict kvs)
  | .ok .null => .error "No data returned from resource"
  | .ok v => .ok (.dict (.cons "data" (.str (pyStr v)) .nil))

/-- The outcome of `kubernetes_get` after a successful resolution: the body
result, with any in-`try` exception wrapped by the `except` handlers. -/
def getOutcome (resource_type name : String) (raw : Val) : ToolOutcome :=
  match getBody raw resource_type with
  | .ok v => .ok v
  | .error e => .toolError (getErrMsg resource_type name e)

/-- `kubernetes_get` (mcp.py lines 160-218).  Parameters arrive as optional
strings; the transport call for the named instance is modelled by the `raw`
argument (the value the dynamic client returned).  The `ToolError` raised
for an unresolvable type inside the `try` block is itself caught by the
trailing `except Exception` handler and re-wrapped, which the model
reproduces. -/
def kubernetesGet (disc : Except String (List Resource)) (cache : Cache) (raw : Val)
    (resource_type name namespaceArg : Option String) : ToolOutcome × Cache :=
  match validateRequiredStringParam resource_type "resource_type" with
  | .error e => (.toolError e, cache)
  | .ok rt0 =>
    let rt := pyLower rt0
    match validateRequiredStringParam name "name" with
    | .error e => (.toolError e, cache)
    | .ok nm =>
      match validateOptionalStringParam namespaceArg "namespace" with
      | .error e => (.toolError e, cache)
      | .ok nsOpt =>
        let ns := nsOpt.getD "default"
        match getResourceApi disc cache rt with
        | (none, c2) =>
          (.toolError (getErrMsg rt nm
            ("Resource type " ++ (sq ++ (rt ++ (sq ++ " not found in cluster"))))), c2)
        | (some r, c2) => (getOutcome rt nm raw, c2)

/-- The parameter-normalization prologue of `kubernetes_list`
(mcp.py lines 100-105): validate the selector, then the namespace, the
latter defaulting to `"default"` when absent. -/
def normalizeListParams (namespaceArg selector : Option String) :
    Except String (String × Option String) :=
  match validateOptionalStringParam selector "selector" with
  | .error e => .error e
  | .ok sel =>
    match validateOptionalStringParam namespaceArg "namespace" with
    | .error e => .error e
    | .ok nsOpt => .ok (nsOpt.getD "default", sel)

/-- Well-formedness of the resolver cache: every cached positive entry was
stored under its own canonical name.  Holds of the empty initial cache and
is preserved by `get_resource_api` (which only stores descriptors whose
`name` equals the lookup key). -/
def CacheWF (cache : Cache) : Prop :=
  ∀ t r, cacheFind cache t = some (some r) → r.name = t

/-- Every value of a dict is the fixed redaction marker. -/
def allRedacted : ValDict → Bool
  | .nil => true
  | .cons _ v rest =>
    (match v with | .str s => s == "REDACTED" | _ => false) && allRedacted rest

/-- The `annotations` field of a metadata mapping, when present and truthy,
is itself a mapping (as it always is for objects coming from the cluster;
on any other value the Python code raises instead of returning). -/
def AnnFieldOk (md : ValDict) : Prop :=
  ∀ a, dictLookup md "annotations" = some a → pyTruthy a = true → ∃ al, a = Val.dict al

/-- The `data` field of a document, when present and truthy, is itself a
mapping. -/
def DataFieldOk (d : ValDict) : Prop :=
  ∀ a, dictLookup d "data" = some a → pyTruthy a = true → ∃ al, a = Val.dict al

mutual

/-- The truncation contract, written from the specification text
(spec section 4.2 rule 6 and section 8): every string leaf of length
greater than 256 becomes its first 256 characters followed by a suffix
containing the literal original length; shorter strings are unchanged;
mappings and sequences keep their shape and keys; numeric, boolean and
null leaves pass through; any other leaf is stringified and the same
length rule applied to the resulting string. -/
inductive TruncSpec : Val → Val → Prop where
  | null : TruncSpec .null .null
  | bool (b : Bool) : TruncSpec (.bool b) (.bool b)
  | int (n : Int) : TruncSpec (.int n) (.int n)
  | float (reprStr : String) (isZero : Bool) :
      TruncSpec (.float reprStr isZero) (.float reprStr isZero)
  | strShort (s : String) : s.length ≤ 256 → TruncSpec (.str s) (.str s)
  | strLong (s sfxHead sfxTail : String) : s.length > 256 →
      TruncSpec (.str s) (.str (s.take 256 ++ sfxHead ++ toString s.length ++ sfxTail))
  | otherShort (s : String) : s.length ≤ 256 → TruncSpec (.other s) (.str s)
  | otherLong (s sfxHead sfxTail : String) : s.length > 256 →
      TruncSpec (.other s) (.str (s.take 256 ++ sfxHead ++ toString s.length ++ sfxTail))
  | arr (l l2 : ValList) : TruncSpecList l l2 → TruncSpec (.arr l) (.arr l2)
  | dict (d d2 : ValDict) : TruncSpecDict d d2 → TruncSpec (.dict d) (.dict d2)

/-- Elementwise `TruncSpec` on sequences (shape preserved). -/
inductive TruncSpecList : ValList → ValList → Prop where
  | nil : TruncSpecList .nil .nil
  | cons (v v2 : Val) (rest rest2 : ValList) :
      TruncSpec v v2 → TruncSpecList rest rest2 →
      TruncSpecList (.cons v rest) (.cons v2 rest2)

/-- Entrywise `TruncSpec` on mappings (shape and keys preserved). -/
inductive TruncSpecDict : ValDict → ValDict → Prop where
  | nil : TruncSpecDict .nil .nil
  | cons (k : String) (v v2 : Val) (rest rest2 : ValDict) :
      TruncSpec v v2 → TruncSpecDict rest rest2 →
      TruncSpecDict (.cons k v rest) (.cons k v2 rest2)

end

/-- The core `pods` descriptor, as in spec section 8 scenario 1. -/
def podsRes : Resource := ⟨"", "v1", "pods", true⟩

/-- A cluster-scoped core candidate named `things`. -/
def thingsClusterRes : Resource := ⟨"", "v1", "things", false⟩

/-- A namespaced core candidate named `things`. -/
def thingsNamespacedRes : Resource := ⟨"", "v1", "things", true⟩

/-- A namespaced custom-resource candidate named `things`. -/
def thingsCustomRes : Resource := ⟨"apps", "v1", "things", true⟩

/-- Example secret `data` mapping used to witness the redaction claims. -/
def exSecretData : ValDict :=
  .cons "password" (.str "hunter2") (.cons "token" (.str "abc123") .nil)

/-- Example raw secret object (metadata plus a non-empty `data` mapping). -/
def exSecretObj : ValDict :=
  .cons "metadata" (.dict (.cons "name" (.str "db-creds") .nil))
    (.cons "data" (.dict exSecretData) .nil)

/-- Example raw metadata mapping carrying a key outside the allowed set
(`resourceVersion`) and a mixed annotations mapping. -/
def exMeta : ValDict :=
  .cons "name" (.str "web")
    (.cons "resourceVersion" (.str "42")
      (.cons "annotations"
        (.dict (.cons "kubectl.kubernetes.io/last-applied-configuration" (.str "x")
          (.cons "team-owner" (.str "me") .nil))) .nil))

/-- Example raw object wrapping `exMeta`. -/
def exMetaObj : ValDict :=
  .cons "metadata" (.dict exMeta) (.cons "spec" (.str "stuff") .nil)

/-! ### Helper lemmas -/

theorem pyTruthy_dict_iff (d : ValDict) : pyTruthy (.dict d) = true ↔ d ≠ .nil := by
  cases d <;> simp [pyTruthy]

theorem dictLookup_isSome_ne_nil (d : ValDict) (k : String) (v : Val)
    (h : dictLookup d k = some v) : d ≠ .nil := by
  intro hd; subst hd; simp [dictLookup] at h

theorem dictLookup_dictSet_self (d : ValDict) (k : String) (v : Val) :
    dictLookup (dictSet d k v) k = some v := by
  cases d with
  | nil => simp [dictSet, dictLookup]
  | cons k0 v0 rest =>
    by_cases h : k0 = k
    · subst h; simp [dictSet, dictLookup]
    · simp [dictSet, dictLookup, h, dictLookup_dictSet_self rest k v]

theorem dictLookup_dictSet_ne (d : ValDict) (k k2 : String) (v : Val) (h : k2 ≠ k) :
    dictLookup (dictSet d k v) k2 = dictLookup d k2 := by
  cases d with
  | nil => simp [dictSet, dictLookup, Ne.symm h]
  | cons k0 v0 rest =>
    by_cases h0 : k0 = k
    · subst h0; simp [dictSet, dictLookup, Ne.symm h]
    · simp [dictSet, dictLookup, h0, dictLookup_dictSet_ne rest k k2 v h]

theorem dictKeys_truncateDict (n : Nat) (d : ValDict) :
    dictKeys (truncateDict n d) = dictKeys d := by
  cases d with
  | nil => rfl
  | cons k v rest => simp [truncateDict, dictKeys, dictKeys_truncateDict n rest]

theorem dictLookup_truncateDict (n : Nat) (d : ValDict) (k : String) :
    dictLookup (truncateDict n d) k = (dictLookup d k).map (truncateDeep n) := by
  cases d with
  | nil => simp [truncateDict, dictLookup]
  | cons k0 v0 rest =>
    by_cases h : k0 = k
    · subst h; simp [truncateDict, dictLookup]
    · simp [truncateDict, dictLookup, h, dictLookup_truncateDict n rest k]

theorem dictKeys_mapToRedacted (d : ValDict) :
    dictKeys (mapToRedacted d) = dictKeys d := by
  cases d with
  | nil => rfl
  | cons k v rest => simp [mapToRedacted, dictKeys, dictKeys_mapToRedacted rest]

theorem allRedacted_mapToRedacted (d : ValDict) :
    allRedacted (mapToRedacted d) = true := by
  cases d with
  | nil => rfl
  | cons k v rest => simp [mapToRedacted, allRedacted, allRedacted_mapToRedacted rest]

theorem truncateDict_mapToRedacted (d : ValDict) :
    truncateDict 256 (mapToRedacted d) = mapToRedacted d := by
  have hr : truncateDeep 256 (Val.str "REDACTED") = Val.str "REDACTED" := rfl
  cases d with
  | nil => rfl
  | cons k v rest => simp [mapToRedacted, truncateDict, hr, truncateDict_mapToRedacted rest]

theorem dictKeys_dictAppend (a b : ValDict) :
    dictKeys (dictAppend a b) = dictKeys a ++ dictKeys b := by
  cases a with
  | nil => rfl
  | cons k v rest => simp [dictAppend, dictKeys, dictKeys_dictAppend rest b]

theorem dictKeys_fieldEntry (md : ValDict) (f k : String)
    (h : k ∈ dictKeys (fieldEntry md f)) : k = f := by
  unfold fieldEntry at h
  cases hl : dictLookup md f <;> rw [hl] at h <;> simp [dictKeys] at h
  exact h

theorem dictKeys_keepFields (md : ValDict) (k : String)
    (h : k ∈ dictKeys (keepFields md)) :
    k = "name" ∨ k = "namespace" ∨ k = "labels" := by
  unfold keepFields at h
  rw [dictKeys_dictAppend, dictKeys_dictAppend] at h
  rcases List.mem_append.mp h with h1 | h2
  · exact Or.inl (dictKeys_fieldEntry md "name" k h1)
  · rcases List.mem_append.mp h2 with h3 | h4
    · exact Or.inr (Or.inl (dictKeys_fieldEntry md "namespace" k h3))
    · exact Or.inr (Or.inr (dictKeys_fieldEntry md "labels" k h4))

theorem keepFields_key_names (md : ValDict) (k : String)
    (h : k ∈ dictKeys (keepFields md)) :
    k = "name" ∨ k = "namespace" ∨ k = "labels" ∨ k = "annotations" := by
  rcases dictKeys_keepFields md k h with h | h | h
  · exact Or.inl h
  · exact Or.inr (Or.inl h)
  · exact Or.inr (Or.inr (Or.inl h))

theorem keepFields_no_annotations_key (md : ValDict)
    (h : "annotations" ∈ dictKeys (keepFields md)) : False := by
  rcases dictKeys_keepFields md "annotations" h with h | h | h <;> simp at h

theorem cleanMetadataDict_ok (md : ValDict) (hann : AnnFieldOk md) :
    ∃ cm, cleanMetadataDict md = .ok cm ∧
      (∀ k ∈ dictKeys cm, k = "name" ∨ k = "namespace" ∨ k = "labels" ∨ k = "annotations") ∧
      ("annotations" ∈ dictKeys cm →
        ∃ al, dictLookup md "annotations" = some (.dict al) ∧ filterAnnotationsDict al ≠ .nil) := by
  cases hl : dictLookup md "annotations" with
  | none =>
    refine ⟨keepFields md, by simp only [cleanMetadataDict, hl], ?_, ?_⟩
    · exact keepFields_key_names md
    · intro hk; exact absurd hk (fun hk2 => keepFields_no_annotations_key md hk2)
  | some av =>
    by_cases ht : pyTruthy av = true
    · obtain ⟨al, rfl⟩ := hann av hl ht
      by_cases hc : pyTruthy (.dict (filterAnnotationsDict al)) = true
      · refine ⟨dictAppend (keepFields md)
            (ValDict.cons "annotations" (Val.dict (filterAnnotationsDict al)) .nil),
          by simp only [cleanMetadataDict, hl]; rw [if_pos ht, if_pos hc], ?_, ?_⟩
        · intro k hk
          rw [dictKeys_dictAppend] at hk
          rcases List.mem_append.mp hk with h1 | h2
          · exact keepFields_key_names md k h1
          · simp [dictKeys] at h2
            exact Or.inr (Or.inr (Or.inr h2))
        · intro _
          exact ⟨al, rfl, (pyTruthy_dict_iff _).mp hc⟩
      · refine ⟨keepFields md,
          by simp only [cleanMetadataDict, hl]; rw [if_pos ht, if_neg hc], ?_, ?_⟩
        · exact keepFields_key_names md
        · intro hk; exact absurd hk (fun hk2 => keepFields_no_annotations_key md hk2)
    · refine ⟨keepFields md,
        by simp only [cleanMetadataDict, hl]; rw [if_neg ht], ?_, ?_⟩
      · exact keepFields_key_names md
      · intro hk; exact absurd hk (fun hk2 => keepFields_no_annotations_key md hk2)

theorem applyMetadataRule_preserves (obj d1 : ValDict)
    (h : applyMetadataRule obj = .ok d1) (k : String) (hk : k ≠ "metadata") :
    dictLookup d1 k = dictLookup obj k := by
  cases hl : dictLookup obj "metadata" with
  | none =>
    simp only [applyMetadataRule, hl] at h
    cases h; rfl
  | some mv =>
    simp only [applyMetadataRule, hl] at h
    by_cases ht : pyTruthy mv = true
    · rw [if_pos ht] at h
      cases mv with
      | dict md =>
        simp only [] at h
        cases he : cleanMetadataDict md with
        | error e => rw [he] at h; simp [Except.map] at h
        | ok cm =>
          rw [he] at h
          simp only [Except.map] at h
          cases h
          exact dictLookup_dictSet_ne obj "metadata" k (.dict cm) hk
      | null => simp at h
      | bool b => simp at h
      | int n => simp at h
      | float reprStr isZero => simp at h
      | str s => simp at h
      | arr l => simp at h
      | other s => simp at h
    · rw [if_neg ht] at h
      cases h; rfl

theorem applyMetadataRule_metadata_set (obj md : ValDict) (cm : ValDict)
    (hmd : dictLookup obj "metadata" = some (.dict md)) (hne : md ≠ .nil)
    (he : cleanMetadataDict md = .ok cm) :
    applyMetadataRule obj = .ok (dictSet obj "metadata" (.dict cm)) := by
  have ht : pyTruthy (Val.dict md) = true := (pyTruthy_dict_iff md).mpr hne
  simp only [applyMetadataRule, hmd]
  rw [if_pos ht, he]
  rfl

theorem applySecretsRule_preserves (rt : String) (d1 d2 : ValDict)
    (h : applySecretsRule rt d1 = .ok d2) (k : String) (hk : k ≠ "data") :
    dictLookup d2 k = dictLookup d1 k := by
  unfold applySecretsRule at h
  by_cases hrt : (rt == "secrets") = true
  · rw [if_pos hrt] at h
    cases hl : dictLookup d1 "data" with
    | none => rw [hl] at h; simp only [] at h; cases h; rfl
    | some dv =>
      rw [hl] at h
      simp only [] at h
      by_cases ht : pyTruthy dv = true
      · rw [if_pos ht] at h
        cases dv with
        | dict kvs =>
          simp only [] at h
          cases h
          exact dictLookup_dictSet_ne d1 "data" k (.dict (mapToRedacted kvs)) hk
        | null => simp at h
        | bool b => simp at h
        | int n => simp at h
        | float reprStr isZero => simp at h
        | str s => simp at h
        | arr l => simp at h
        | other s => simp at h
      · rw [if_neg ht] at h; cases h; rfl
  · rw [if_neg hrt] at h; cases h; rfl

theorem applySecretsRule_not_secrets (rt : String) (d1 : ValDict)
    (hrt : (rt == "secrets") = false) : applySecretsRule rt d1 = .ok d1 := by
  unfold applySecretsRule
  rw [if_neg (by simp [hrt])]

theorem applySecretsRule_redacts (d1 kvs : ValDict)
    (hd : dictLookup d1 "data" = some (.dict kvs)) (hne : kvs ≠ .nil) :
    applySecretsRule "secrets" d1 = .ok (dictSet d1 "data" (.dict (mapToRedacted kvs))) := by
  have ht : pyTruthy (Val.dict kvs) = true := (pyTruthy_dict_iff kvs).mpr hne
  simp only [applySecretsRule, hd, ht]
  simp

theorem applySecretsRule_ok_of_dataOk (rt : String) (d1 : ValDict)
    (hdata : DataFieldOk d1) : ∃ d2, applySecretsRule rt d1 = .ok d2 := by
  unfold applySecretsRule
  by_cases hrt : (rt == "secrets") = true
  · rw [if_pos hrt]
    cases hl : dictLookup d1 "data" with
    | none => exact ⟨d1, rfl⟩
    | some dv =>
      by_cases ht : pyTruthy dv = true
      · obtain ⟨al, rfl⟩ := hdata dv hl ht
        refine ⟨dictSet d1 "data" (.dict (mapToRedacted al)), ?_⟩
        simp only []
        rw [if_pos ht]
      · refine ⟨d1, ?_⟩
        simp only []
        rw [if_neg ht]
  · rw [if_neg hrt]
    exact ⟨d1, rfl⟩

theorem cleanResourceObject_shape (v : Val) (rt : String) :
    (∃ e, cleanResourceObject v rt = .error e) ∨
    (∃ kvs, cleanResourceObject v rt = .ok (.dict kvs)) := by
  unfold cleanResourceObject
  by_cases h : pyTruthy v = true
  · rw [if_pos h]
    cases hb : (applyMetadataRule (coerceToDict v)).bind (applySecretsRule rt) with
    | error e => exact Or.inl ⟨e, rfl⟩
    | ok result => exact Or.inr ⟨truncateDict 256 result, rfl⟩
  · rw [if_neg h]
    exact Or.inr ⟨.nil, rfl⟩

theorem cleanResourceObject_dict_of_truthy (obj d1 d2 : ValDict) (rt : String)
    (hne : obj ≠ .nil)
    (hm : applyMetadataRule obj = .ok d1) (hs : applySecretsRule rt d1 = .ok d2) :
    cleanResourceObject (.dict obj) rt = .ok (.dict (truncateDict 256 d2)) := by
  have ht : pyTruthy (Val.dict obj) = true := (pyTruthy_dict_iff obj).mpr hne
  unfold cleanResourceObject
  rw [if_pos ht]
  have hc : coerceToDict (Val.dict obj) = obj := rfl
  rw [hc, hm]
  simp only [Except.bind]
  rw [hs]
  rfl

theorem pickPreferred_some (l : List Resource) (p : Resource) :
    pickPreferred (some p) l = some ((l.find? (fun r => r.group == "")).getD p) := by
  induction l generalizing p with
  | nil => simp [pickPreferred]
  | cons r rest ih =>
    by_cases h : r.group = ""
    · simp [pickPreferred, List.find?, h]
    · simp only [pickPreferred, List.find?]
      rw [if_neg (by simp [h]), ih]
      have hb : (r.group == "") = false := by simp [h]
      rw [hb]

theorem pickPreferred_none_cons (r0 : Resource) (rest : List Resource) :
    pickPreferred none (r0 :: rest) =
      some (((r0 :: rest).find? (fun r => r.group == "")).getD r0) := by
  by_cases h : r0.group = ""
  · simp [pickPreferred, List.find?, h]
  · simp only [pickPreferred, List.find?]
    rw [if_neg (by simp [h]), pickPreferred_some]
    have hb : (r0.group == "") = false := by simp [h]
    rw [hb]

theorem getResourceApi_ok_cases (rs : List Resource) (cache : Cache) (t : String)
    (h : cacheFind cache t = none) :
    (getResourceApi (.ok rs) cache t).1 =
      match rs.filter (fun r => r.name == t) with
      | [] => none
      | r0 :: rest => some (((r0 :: rest).find? (fun r => r.group == "")).getD r0) := by
  unfold getResourceApi
  rw [h]
  simp only []
  cases hm : rs.filter (fun r => r.name == t) with
  | nil => rfl
  | cons r0 rest => simp [pickPreferred_none_cons]

theorem getResourceApi_some_name (disc : Except String (List Resource)) (cache : Cache)
    (t : String) (hwf : CacheWF cache) (r : Resource) (c2 : Cache)
    (h : getResourceApi disc cache t = (some r, c2)) : r.name = t := by
  cases hc : cacheFind cache t with
  | some cached =>
    unfold getResourceApi at h
    rw [hc] at h
    cases h
    exact hwf t r hc
  | none =>
    cases disc with
    | error e =>
      unfold getResourceApi at h
      rw [hc] at h
      cases h
    | ok rs =>
      have hchar := getResourceApi_ok_cases rs cache t hc
      rw [h] at hchar
      cases hm : rs.filter (fun x => x.name == t) with
      | nil => rw [hm] at hchar; cases hchar
      | cons r0 rest =>
        rw [hm] at hchar
        have hrmem : r ∈ rs.filter (fun x => x.name == t) := by
          rw [hm]
          cases hf : (r0 :: rest).find? (fun x => x.group == "") with
          | none =>
            simp [hf] at hchar
            simp [hchar]
          | some rf =>
            simp [hf] at hchar
            subst hchar
            exact List.mem_of_find?_eq_some hf
        have := List.mem_filter.mp hrmem
        exact eq_of_beq this.2

mutual

theorem truncAuxVal (v : Val) : TruncSpec v (truncateDeep 256 v) := by
  cases v with
  | null => exact TruncSpec.null
  | bool b => exact TruncSpec.bool b
  | int n => exact TruncSpec.int n
  | float reprStr isZero => exact TruncSpec.float reprStr isZero
  | str s =>
    simp only [truncateDeep]
    by_cases h : s.length > 256
    · rw [if_pos h]
      exact TruncSpec.strLong s "... [truncated, original length: " "]" h
    · rw [if_neg h]
      exact TruncSpec.strShort s (Nat.le_of_not_lt h)
  | other s =>
    simp only [truncateDeep]
    by_cases h : s.length > 256
    · rw [if_pos h]
      exact TruncSpec.otherLong s "... [truncated, original length: " "]" h
    · rw [if_neg h]
      exact TruncSpec.otherShort s (Nat.le_of_not_lt h)
  | arr l => exact TruncSpec.arr l (truncateList 256 l) (truncAuxList l)
  | dict d => exact TruncSpec.dict d (truncateDict 256 d) (truncAuxDict d)

theorem truncAuxList (l : ValList) : TruncSpecList l (truncateList 256 l) := by
  cases l with
  | nil => exact TruncSpecList.nil
  | cons v rest =>
    exact TruncSpecList.cons v (truncateDeep 256 v) rest (truncateList 256 rest)
      (truncAuxVal v) (truncAuxList rest)

theorem truncAuxDict (d : ValDict) : TruncSpecDict d (truncateDict 256 d) := by
  cases d with
  | nil => exact TruncSpecDict.nil
  | cons k v rest =>
    exact TruncSpecDict.cons k v (truncateDeep 256 v) rest (truncateDict 256 rest)
      (truncAuxVal v) (truncAuxDict rest)

end

theorem getResourceApi_fresh_mem (rs : List Resource) (cache : Cache) (t : String)
    (hmiss : cacheFind cache t = none) (r : Resource)
    (hr : (getResourceApi (.ok rs) cache t).1 = some r) :
    r ∈ rs ∧ r.name = t := by
  have hchar := getResourceApi_ok_cases rs cache t hmiss
  rw [hchar] at hr
  cases hm : rs.filter (fun x => x.name == t) with
  | nil => simp only [hm] at hr; simp at hr
  | cons r0 rest =>
    simp only [hm] at hr
    have hreq : ((r0 :: rest).find? (fun x => x.group == "")).getD r0 = r :=
      Option.some.inj hr
    have hrmem : r ∈ r0 :: rest := by
      cases hf : (r0 :: rest).find? (fun x => x.group == "") with
      | none =>
        rw [hf] at hreq
        simp only [Option.getD] at hreq
        exact hreq ▸ List.mem_cons_self r0 rest
      | some rf =>
        rw [hf] at hreq
        simp only [Option.getD] at hreq
        exact hreq ▸ List.mem_of_find?_eq_some hf
    have hrf : r ∈ rs.filter (fun x => x.name == t) := hm ▸ hrmem
    exact ⟨(List.mem_filter.mp hrf).1, eq_of_beq (List.mem_filter.mp hrf).2⟩

/-! ### Claim theorems -/

/-- Claim C1: for every Get invocation, the type string handed to the
sanitizer equals the resolved descriptor's canonical plural `name` (the
lowercased request string coincides with it, because the resolver only
matches descriptors whose name equals the request exactly), so the whole
Get outcome is the sanitizer applied with the authoritative kind and the
secrets rule keys off that kind.  Under the exact-match resolver an input
like "secret" does not resolve at all, so no resolving request can disagree
with its descriptor's name. -/
theorem get_uses_canonical_type_name
    (disc : Except String (List Resource)) (cache : Cache) (raw : Val)
    (rtParam nmParam nsParam : Option String)
    (rt0 nm : String) (nsv : Option String) (r : Resource) (c2 : Cache)
    (hwf : CacheWF cache)
    (hv : validateRequiredStringParam rtParam "resource_type" = .ok rt0)
    (hn : validateRequiredStringParam nmParam "name" = .ok nm)
    (hns : validateOptionalStringParam nsParam "namespace" = .ok nsv)
    (hres : getResourceApi disc cache (pyLower rt0) = (some r, c2)) :
    r.name = pyLower rt0 ∧
    cleanResourceObject raw (pyLower rt0) = cleanResourceObject raw r.name ∧
    kubernetesGet disc cache raw rtParam nmParam nsParam = (getOutcome r.name nm raw, c2) := by
  have hname : r.name = pyLower rt0 :=
    getResourceApi_some_name disc cache (pyLower rt0) hwf r c2 hres
  refine ⟨hname, by rw [hname], ?_⟩
  unfold kubernetesGet
  rw [hv]
  simp only []
  rw [hn]
  simp only []
  rw [hns]
  simp only []
  rw [hres]
  simp only []
  rw [hname]

/-- Witness for C1: a Get for the mixed-case input "PODS" resolves to the
core `pods` descriptor and sanitizes with its canonical name. -/
theorem get_uses_canonical_type_name_witness :
    podsRes.name = pyLower "PODS" ∧
    cleanResourceObject Val.null (pyLower "PODS") = cleanResourceObject Val.null podsRes.name ∧
    kubernetesGet (.ok [podsRes]) [] Val.null (some "PODS") (some "p1") (some "default")
      = (getOutcome podsRes.name "p1" Val.null, [("pods", some podsRes)]) :=
  get_uses_canonical_type_name (.ok [podsRes]) [] Val.null
    (some "PODS") (some "p1") (some "default")
    "PODS" "p1" (some "default") podsRes [("pods", some podsRes)]
    (fun t r h => nomatch h) rfl rfl rfl rfl

/-- Claim C2: sanitizing a raw object whose `data` field is a non-empty
mapping under type `"secrets"` yields a document whose `data` mapping has
exactly the original keys, every value the fixed marker `"REDACTED"`,
whatever the original values were. -/
theorem secrets_data_redacted (obj dataKvs d1 : ValDict)
    (hd : dictLookup obj "data" = some (.dict dataKvs)) (hne : dataKvs ≠ .nil)
    (hmr : applyMetadataRule obj = .ok d1) :
    ∃ outKvs, cleanResourceObject (.dict obj) "secrets" = .ok (.dict outKvs) ∧
      dictLookup outKvs "data" = some (.dict (mapToRedacted dataKvs)) ∧
      dictKeys (mapToRedacted dataKvs) = dictKeys dataKvs ∧
      allRedacted (mapToRedacted dataKvs) = true := by
  have hobj : obj ≠ .nil := dictLookup_isSome_ne_nil obj "data" _ hd
  have hd1 : dictLookup d1 "data" = some (.dict dataKvs) := by
    rw [applyMetadataRule_preserves obj d1 hmr "data" (by decide), hd]
  have hs := applySecretsRule_redacts d1 dataKvs hd1 hne
  have hclean := cleanResourceObject_dict_of_truthy obj d1 _ "secrets" hobj hmr hs
  refine ⟨truncateDict 256 (dictSet d1 "data" (.dict (mapToRedacted dataKvs))), hclean,
    ?_, dictKeys_mapToRedacted dataKvs, allRedacted_mapToRedacted dataKvs⟩
  rw [dictLookup_truncateDict, dictLookup_dictSet_self]
  simp only [Option.map]
  rw [show truncateDeep 256 (Val.dict (mapToRedacted dataKvs))
        = Val.dict (truncateDict 256 (mapToRedacted dataKvs)) from rfl,
      truncateDict_mapToRedacted]

/-- Witness for C2: a two-key secret `data` mapping is fully redacted. -/
theorem secrets_data_redacted_witness :
    ∃ outKvs, cleanResourceObject (.dict exSecretObj) "secrets" = .ok (.dict outKvs) ∧
      dictLookup outKvs "data" = some (.dict (mapToRedacted exSecretData)) ∧
      dictKeys (mapToRedacted exSecretData) = dictKeys exSecretData ∧
      allRedacted (mapToRedacted exSecretData) = true :=
  secrets_data_redacted exSecretObj exSecretData exSecretObj rfl (fun h => nomatch h) rfl

/-- Counterexample to claim C3 as stated: with the cluster exposing only the
`pods` kind, resolving "pods" (performing discovery and caching) succeeds,
while a subsequent resolve of its singular counterpart "pod" returns
not-found — the two do not return the same descriptor, because the resolver
in kubediag/kubernetes.py matches descriptor names exactly and never tries
the singular/plural counterpart. -/
theorem plural_singular_not_unified_cex :
    getResourceApi (.ok [podsRes]) [] "pods" = (some podsRes, [("pods", some podsRes)]) ∧
    getResourceApi (.ok [podsRes]) [("pods", some podsRes)] "pod"
      = (none, [("pods", some podsRes), ("pod", none)]) ∧
    (some podsRes ≠ (none : Option Resource)) :=
  ⟨rfl, rfl, fun h => nomatch h⟩

/-- Claim C3 amended: the resolver used by the tool layer matches the
requested string against descriptor names exactly; an uncached request
resolves to a descriptor iff some discovered resource bears exactly that
name, so singular and plural forms such as "pod" and "pods" resolve
independently rather than to the same descriptor. -/
theorem resolve_exact_match_only (rs : List Resource) (cache : Cache) (t : String)
    (h : cacheFind cache t = none) :
    (∀ r, (getResourceApi (.ok rs) cache t).1 = some r → r.name = t) ∧
    ((getResourceApi (.ok rs) cache t).1 = none ↔ ∀ r ∈ rs, r.name ≠ t) := by
  constructor
  · intro r hr
    exact (getResourceApi_fresh_mem rs cache t h r hr).2
  · have hchar := getResourceApi_ok_cases rs cache t h
    rw [hchar]
    cases hm : rs.filter (fun x => x.name == t) with
    | nil =>
      simp only []
      constructor
      · intro _ r hrs hname
        have hmem : r ∈ rs.filter (fun x => x.name == t) :=
          List.mem_filter.mpr ⟨hrs, by simp [hname]⟩
        rw [hm] at hmem
        simp at hmem
      · intro _; trivial
    | cons r0 rest =>
      simp only []
      constructor
      · intro habs; simp at habs
      · intro hall
        have hmem0 : r0 ∈ rs.filter (fun x => x.name == t) := by
          rw [hm]; exact List.mem_cons_self r0 rest
        have hmem := List.mem_filter.mp hmem0
        exact absurd (eq_of_beq hmem.2) (hall r0 hmem.1)

/-- Witness for the amended C3 with a one-descriptor cluster. -/
theorem resolve_exact_match_only_witness :
    (∀ r, (getResourceApi (.ok [podsRes]) [] "pods").1 = some r → r.name = "pods") ∧
    ((getResourceApi (.ok [podsRes]) [] "pods").1 = none ↔ ∀ r ∈ [podsRes], r.name ≠ "pods") :=
  resolve_exact_match_only [podsRes] [] "pods" rfl

/-- Counterexample to claim C4 as stated: among two candidates with empty
API group — the first cluster-scoped, the second namespaced — the resolver
picks the first (cluster-scoped) one, even though a namespaced candidate
exists; the namespaced flag is never consulted by the tie-break in
kubediag/kubernetes.py. -/
theorem tiebreak_ignores_namespaced_cex :
    (getResourceApi (.ok [thingsClusterRes, thingsNamespacedRes]) [] "things").1
      = some thingsClusterRes ∧
    thingsClusterRes.namespaced = false ∧
    thingsNamespacedRes.name = "things" ∧
    thingsNamespacedRes.namespaced = true ∧
    thingsClusterRes ≠ thingsNamespacedRes :=
  ⟨rfl, rfl, rfl, rfl, by decide⟩

/-- Claim C4 amended: among multiple candidates the resolver picks the
first candidate (in discovery order) whose API group is empty, and if no
candidate has an empty group, the first candidate in discovery order; the
namespaced flag plays no part in the tie-break. -/
theorem tiebreak_prefers_core_group (rs : List Resource) (cache : Cache) (t : String)
    (h : cacheFind cache t = none) (r0 : Resource) (rest : List Resource)
    (hm : rs.filter (fun r => r.name == t) = r0 :: rest) :
    (getResourceApi (.ok rs) cache t).1 =
      some (((r0 :: rest).find? (fun r => r.group == "")).getD r0) := by
  rw [getResourceApi_ok_cases rs cache t h, hm]

/-- Witness for the amended C4: the core (empty-group) candidate is chosen
over an earlier custom-resource candidate. -/
theorem tiebreak_prefers_core_group_witness :
    (getResourceApi (.ok [thingsCustomRes, thingsClusterRes]) [] "things").1 =
      some (((thingsCustomRes :: [thingsClusterRes]).find?
        (fun r => r.group == "")).getD thingsCustomRes) :=
  tiebreak_prefers_core_group [thingsCustomRes, thingsClusterRes] [] "things" rfl
    thingsCustomRes [thingsClusterRes] rfl

/-- Counterexample to claim C5 as stated: a Get whose transport result
sanitizes to the empty mapping returns that empty document as a success;
it does not fail with the "No data returned from resource" condition. -/
theorem empty_sanitize_empty_success_cex :
    kubernetesGet (.ok [podsRes]) [] Val.null (some "pods") (some "p1") (some "default")
      = (.ok (.dict .nil), [("pods", some podsRes)]) ∧
    (ToolOutcome.ok (Val.dict .nil) ≠ ToolOutcome.toolError "No data returned from resource") :=
  ⟨rfl, fun h => nomatch h⟩

/-- Claim C5 amended: a Get whose transport result sanitizes to an empty
mapping returns the empty document as a success; the explicit "no data"
condition is raised only when the sanitizer returns `None`, which
`clean_resource_object` never does. -/
theorem empty_sanitize_is_success
    (disc : Except String (List Resource)) (cache : Cache) (raw : Val)
    (rtParam nmParam nsParam : Option String)
    (rt0 nm : String) (nsv : Option String) (r : Resource) (c2 : Cache)
    (hv : validateRequiredStringParam rtParam "resource_type" = .ok rt0)
    (hn : validateRequiredStringParam nmParam "name" = .ok nm)
    (hns : validateOptionalStringParam nsParam "namespace" = .ok nsv)
    (hres : getResourceApi disc cache (pyLower rt0) = (some r, c2))
    (hclean : cleanResourceObject raw (pyLower rt0) = .ok (.dict .nil)) :
    kubernetesGet disc cache raw rtParam nmParam nsParam = (.ok (.dict .nil), c2) ∧
    (∀ raw2 rt2, cleanResourceObject raw2 rt2 ≠ .ok Val.null) := by
  constructor
  · unfold kubernetesGet
    rw [hv]
    simp only []
    rw [hn]
    simp only []
    rw [hns]
    simp only []
    rw [hres]
    simp only []
    unfold getOutcome getBody
    rw [hclean]
  · intro raw2 rt2 habs
    rcases cleanResourceObject_shape raw2 rt2 with ⟨e, he⟩ | ⟨kvs, he⟩ <;>
      rw [he] at habs <;> simp at habs

/-- Witness for the amended C5: a falsy transport result yields the empty
document as a successful Get. -/
theorem empty_sanitize_is_success_witness :
    kubernetesGet (.ok [podsRes]) [] (Val.int 0) (some "pods") (some "p2") (some "default")
      = (.ok (.dict .nil), [("pods", some podsRes)]) ∧
    (∀ raw2 rt2, cleanResourceObject raw2 rt2 ≠ .ok Val.null) :=
  empty_sanitize_is_success (.ok [podsRes]) [] (Val.int 0)
    (some "pods") (some "p2") (some "default")
    "pods" "p2" (some "default") podsRes [("pods", some podsRes)]
    rfl rfl rfl rfl rfl

/-- Claim C6: `_truncate_deep` at the default threshold satisfies the
specification's truncation contract: string leaves longer than 256 become
their first 256 characters plus a suffix containing the literal original
length, shorter strings are unchanged, mappings and sequences keep their
shape and keys, numeric/boolean/null leaves pass through, and any other
leaf is stringified with the same length rule applied. -/
theorem truncate_deep_meets_spec (v : Val) : TruncSpec v (truncateDeep 256 v) :=
  truncAuxVal v

/-- Witness for C6 at a concrete over-long string leaf. -/
theorem truncate_deep_meets_spec_witness :
    TruncSpec (Val.dict exSecretObj) (truncateDeep 256 (Val.dict exSecretObj)) :=
  truncate_deep_meets_spec (Val.dict exSecretObj)

/-- Claim C7: for a raw object whose truthy metadata mapping may contain
arbitrary keys, the sanitized metadata contains at most `name`,
`namespace`, `labels` and `annotations`, and the `annotations` key is
present only when the original annotations mapping survives the denylist
filter non-empty. -/
theorem metadata_filtered_keys (obj md : ValDict) (rt : String)
    (hmd : dictLookup obj "metadata" = some (.dict md)) (hne : md ≠ .nil)
    (hann : AnnFieldOk md) (hdata : DataFieldOk obj) :
    ∃ outKvs cm,
      cleanResourceObject (.dict obj) rt = .ok (.dict outKvs) ∧
      dictLookup outKvs "metadata" = some (.dict cm) ∧
      (∀ k ∈ dictKeys cm, k = "name" ∨ k = "namespace" ∨ k = "labels" ∨ k = "annotations") ∧
      ("annotations" ∈ dictKeys cm →
        ∃ al, dictLookup md "annotations" = some (.dict al) ∧
          filterAnnotationsDict al ≠ .nil) := by
  have hobj : obj ≠ .nil := dictLookup_isSome_ne_nil obj "metadata" _ hmd
  obtain ⟨cm0, hcm, hkeys, hannK⟩ := cleanMetadataDict_ok md hann
  have hmr := applyMetadataRule_metadata_set obj md cm0 hmd hne hcm
  have hdata1 : DataFieldOk (dictSet obj "metadata" (.dict cm0)) := by
    intro a ha ht
    rw [dictLookup_dictSet_ne obj "metadata" "data" (.dict cm0) (by decide)] at ha
    exact hdata a ha ht
  obtain ⟨d2, hs⟩ := applySecretsRule_ok_of_dataOk rt (dictSet obj "metadata" (.dict cm0)) hdata1
  have hclean := cleanResourceObject_dict_of_truthy obj (dictSet obj "metadata" (.dict cm0))
    d2 rt hobj hmr hs
  have hmd2 : dictLookup d2 "metadata" = some (.dict cm0) := by
    rw [applySecretsRule_preserves rt (dictSet obj "metadata" (.dict cm0)) d2 hs
      "metadata" (by decide)]
    exact dictLookup_dictSet_self obj "metadata" (.dict cm0)
  refine ⟨truncateDict 256 d2, truncateDict 256 cm0, hclean, ?_, ?_, ?_⟩
  · rw [dictLookup_truncateDict, hmd2]
    rfl
  · intro k hk
    rw [dictKeys_truncateDict] at hk
    exact hkeys k hk
  · intro hk
    rw [dictKeys_truncateDict] at hk
    exact hannK hk

/-- Witness for C7: the `resourceVersion` key is dropped from the sanitized
metadata while the kubectl annotation is filtered away and `team-owner`
survives. -/
theorem metadata_filtered_keys_witness :
    ∃ outKvs cm,
      cleanResourceObject (.dict exMetaObj) "pods" = .ok (.dict outKvs) ∧
      dictLookup outKvs "metadata" = some (.dict cm) ∧
      (∀ k ∈ dictKeys cm, k = "name" ∨ k = "namespace" ∨ k = "labels" ∨ k = "annotations") ∧
      ("annotations" ∈ dictKeys cm →
        ∃ al, dictLookup exMeta "annotations" = some (.dict al) ∧
          filterAnnotationsDict al ≠ .nil) :=
  metadata_filtered_keys exMetaObj exMeta "pods" rfl (fun h => nomatch h)
    (fun a h ht => ⟨_, (Option.some.inj h).symm⟩)
    (fun a h ht => nomatch h)

/-- Claim C8: a discovery-transport error is caught by the resolver, stored
as the explicit negative marker under the requested key, and returned as
not-found; the run is indistinguishable from a cluster that exposes no
resource kinds at all. -/
theorem discovery_error_cached_negative (e : String) (cache : Cache) (t : String)
    (h : cacheFind cache t = none) :
    getResourceApi (.error e) cache t = (none, cacheInsert cache t none) ∧
    getResourceApi (.error e) cache t = getResourceApi (.ok []) cache t := by
  constructor
  · unfold getResourceApi
    rw [h]
  · unfold getResourceApi
    rw [h]
    rfl

/-- Witness for C8 at a concrete failing discovery call. -/
theorem discovery_error_cached_negative_witness :
    getResourceApi (.error "boom") [] "deployments"
      = (none, cacheInsert [] "deployments" none) ∧
    getResourceApi (.error "boom") [] "deployments"
      = getResourceApi (.ok []) [] "deployments" :=
  discovery_error_cached_negative "boom" [] "deployments" rfl

/-- Claim C9: the optional-string validator maps the literal absence forms
"none", "null" and the empty string — case-insensitively, after stripping
surrounding whitespace — to true absence for both the namespace and the
selector parameters, and the absent namespace then defaults to
"default" in `kubernetes_list`. -/
theorem optional_param_normalization (s : String)
    (h : pyNormalize s = "none" ∨ pyNormalize s = "null" ∨ pyNormalize s = "") :
    validateOptionalStringParam (some s) "namespace" = .ok none ∧
    validateOptionalStringParam (some s) "selector" = .ok none ∧
    normalizeListParams (some s) (some s) = .ok ("default", none) := by
  have hcond : (pyNormalize s == "none" || pyNormalize s == "null"
      || pyNormalize s == "") = true := by
    rcases h with h | h | h <;> simp [h]
  have hv : ∀ pn : String, validateOptionalStringParam (some s) pn = .ok none := by
    intro pn
    unfold validateOptionalStringParam
    simp only []
    rw [if_pos hcond]
  refine ⟨hv "namespace", hv "selector", ?_⟩
  unfold normalizeListParams
  rw [hv "selector"]
  simp only []
  rw [hv "namespace"]
  rfl

/-- Witness for C9 at the literal string " None ". -/
theorem optional_param_normalization_witness :
    validateOptionalStringParam (some " None ") "namespace" = .ok none ∧
    validateOptionalStringParam (some " None ") "selector" = .ok none ∧
    normalizeListParams (some " None ") (some " None ") = .ok ("default", none) :=
  optional_param_normalization " None " (Or.inl rfl)

/-- Claim C10: `clean_resource_object` never returns `None` or a non-mapping
value — a falsy input yields the empty mapping and every successful result
is a mapping (malformed nested fields make the Python code raise, which the
generic exception handler converts; it still never reaches the branches in
question).  Consequently, in `kubernetes_get` the branch raising "No data
returned from resource" and the branch wrapping a non-dict result are
unreachable: every error of the body is a sanitizer error, and every
mapping produced by the sanitizer is returned as-is. -/
theorem clean_always_mapping (v : Val) (rt : String) :
    (pyTruthy v = false → cleanResourceObject v rt = .ok (.dict .nil)) ∧
    ((∃ e, cleanResourceObject v rt = .error e) ∨
      (∃ kvs, cleanResourceObject v rt = .ok (.dict kvs))) ∧
    cleanResourceObject v rt ≠ .ok Val.null ∧
    (∀ x, getBody v rt = .error x → cleanResourceObject v rt = .error x) ∧
    (∀ kvs, cleanResourceObject v rt = .ok (.dict kvs) → getBody v rt = .ok (.dict kvs)) := by
  refine ⟨?_, cleanResourceObject_shape v rt, ?_, ?_, ?_⟩
  · intro hf
    unfold cleanResourceObject
    rw [if_neg (by simp [hf])]
  · intro habs
    rcases cleanResourceObject_shape v rt with ⟨e, he⟩ | ⟨kvs, he⟩ <;>
      rw [he] at habs <;> simp at habs
  · intro x hx
    unfold getBody at hx
    rcases cleanResourceObject_shape v rt with ⟨e, he⟩ | ⟨kvs, he⟩
    · rw [he] at hx
      simp only [] at hx
      cases hx
      exact he
    · rw [he] at hx
      simp at hx
  · intro kvs hk
    unfold getBody
    rw [hk]

/-- Witness for C10 at a concrete non-empty document. -/
theorem clean_always_mapping_witness :
    (pyTruthy (Val.dict exMetaObj) = false →
      cleanResourceObject (Val.dict exMetaObj) "pods" = .ok (.dict .nil)) ∧
    ((∃ e, cleanResourceObject (Val.dict exMetaObj) "pods" = .error e) ∨
      (∃ kvs, cleanResourceObject (Val.dict exMetaObj) "pods" = .ok (.dict kvs))) ∧
    cleanResourceObject (Val.dict exMetaObj) "pods" ≠ .ok Val.null ∧
    (∀ x, getBody (Val.dict exMetaObj) "pods" = .error x →
      cleanResourceObject (Val.dict exMetaObj) "pods" = .error x) ∧
    (∀ kvs, cleanResourceObject (Val.dict exMetaObj) "pods" = .ok (.dict kvs) →
      getBody (Val.dict exMetaObj) "pods" = .ok (.dict kvs)) :=
  clean_always_mapping (Val.dict exMetaObj) "pods"

end Kubediag
